import Mathlib

/-!
Shallow embedding of the knowledge-hub web application (Next.js frontend
pages under `apps/web/app`) together with a spec-modelled embedding of the
backend Retrieval/Answer Service, and proofs about the behaviour claimed by
the specification.

Frontend handlers are embedded as pure state-transition functions: each
submit handler maps the page state plus the outcome of its `fetch` call to
the optional HTTP request it issues and the final page state. JavaScript
numbers carrying identifiers are embedded as `Int`; similarity scores
(floats produced by an external similarity function) are embedded as `Rat`.
-/

namespace KnowledgeHub

/-- JavaScript `String.prototype.trim`: strip whitespace from both ends
(embedded on the character list so that it computes in the kernel). -/
def jsTrim (s : String) : String :=
  String.mk (((s.data.dropWhile Char.isWhitespace).reverse.dropWhile
    Char.isWhitespace).reverse)

/-- JavaScript `String.prototype.split` with a single-character separator:
splits at every occurrence of `sep`, keeping empty pieces (so a doubled
separator yields an empty token, as `split(' ')` does). -/
def splitOnChar (sep : Char) : List Char → List (List Char)
  | [] => [[]]
  | c :: rest =>
      match splitOnChar sep rest with
      | [] => if c == sep then [[], []] else [[c]]
      | h :: t => if c == sep then [] :: h :: t else (c :: h) :: t

/-- One search hit as declared by the `ChunkResult` interface of the search
page (`interface ChunkResult`). -/
structure ChunkResult where
  id : Int
  text : String
  chunk_index : Int
  document_id : Int
  filename : String
  similarity_score : Rat
deriving DecidableEq

/-- Response consumed by the search page (`interface SearchResponse`). -/
structure SearchResponse where
  query : String
  results : List ChunkResult
  total_results : Int
deriving DecidableEq

/-- A citation as declared by the chat page (`interface Citation`). -/
structure Citation where
  document_id : Int
  chunk_index : Int
deriving DecidableEq

/-- A context hit as declared by the chat page (`interface ContextHit`). -/
structure ContextHit where
  document_id : Int
  chunk_index : Int
  score : Rat
  preview : String
deriving DecidableEq

/-- Response consumed by the chat page. The TypeScript interface
`QAResponse` declares `answer`, `citations`, `hits`; the handler guards
each field (`data.answer || ''` and friends), so the runtime JSON value is
embedded with `Option` fields to model absent or null members. -/
structure QAResponse where
  answer : Option String
  citations : Option (List Citation)
  hits : Option (List ContextHit)
deriving DecidableEq

/-- Health payload parsed by the home page (`interface HealthResponse`). -/
structure HealthResponse where
  status : String
  timestamp : String
  version : String
  environment : String
deriving DecidableEq

/-- Body of the POST /search request built by `handleSearch`:
`JSON.stringify(\x7b query: query.trim(), k: 10 \x7d)` — exactly the two
fields `query` and `k`. -/
structure SearchRequest where
  query : String
  k : Nat
deriving DecidableEq

/-- Body of the POST /qa request built by `ask`: exactly the three fields
`query`, `k`, `max_tokens`. -/
structure QARequest where
  query : String
  k : Nat
  max_tokens : Nat
deriving DecidableEq

/-- Body of the POST /ingest request built by the ingest page. -/
structure IngestRequest where
  source : String
  url : String
deriving DecidableEq

/-- Outcome of a `fetch` as observed by a page handler: a parsed JSON body
on `response.ok`, an HTTP failure with its `statusText`, or a thrown
network error carrying the `Error` message when there is one. -/
inductive FetchOutcome (α : Type) where
  | ok (data : α)
  | httpError (statusText : String)
  | networkError (message : Option String)
deriving DecidableEq

/-- State of the search page: the `useState` hooks of `SearchPage`. -/
structure SearchState where
  query : String
  results : Option SearchResponse
  loading : Bool
  error : String
deriving DecidableEq

/-- The `handleSearch` submit handler of the search page: returns early on a
blank query, otherwise issues POST /search with the trimmed query and
`k = 10` and folds the fetch outcome into the final state (the `finally`
clause clears `loading`). -/
def handleSearch (st : SearchState) (outcome : FetchOutcome SearchResponse) :
    Option SearchRequest × SearchState :=
  if jsTrim st.query = "" then (none, st)
  else
    let req : SearchRequest := { query := jsTrim st.query, k := 10 }
    match outcome with
    | .ok data =>
        (some req, { st with loading := false, error := "", results := some data })
    | .httpError s =>
        (some req, { st with loading := false, results := none,
                             error := "Search failed: " ++ s })
    | .networkError m =>
        (some req, { st with loading := false, results := none,
                             error := m.getD "Search failed" })

/-- Rendering decision of the search page's results section: the
empty-result panel is shown exactly when `results.total_results === 0`,
otherwise the list of result cards. -/
inductive SearchView where
  | emptyState
  | resultsList (rs : List ChunkResult)
deriving DecidableEq

/-- The results branch of `SearchPage`'s JSX: `results.total_results === 0 ?`
empty panel `:` result list. -/
def searchResultsView (r : SearchResponse) : SearchView :=
  if r.total_results = 0 then .emptyState else .resultsList r.results

/-- State of the chat page: the `useState` hooks of `ChatPage`. -/
structure ChatState where
  query : String
  loading : Bool
  answer : String
  citations : List Citation
  hits : List ContextHit
  error : String
deriving DecidableEq

/-- The `ask` submit handler of the chat page: returns early when the
trimmed query is blank or a request is in flight; otherwise issues POST /qa
with body `query` (trimmed), `k = 6`, `max_tokens = 384`, clears the
previous answer state, and folds the fetch outcome into the final state,
defaulting a missing `answer` to the empty string and missing `citations`
or `hits` to empty lists. -/
def ask (st : ChatState) (outcome : FetchOutcome QAResponse) :
    Option QARequest × ChatState :=
  if jsTrim st.query = "" ∨ st.loading = true then (none, st)
  else
    let req : QARequest := { query := jsTrim st.query, k := 6, max_tokens := 384 }
    match outcome with
    | .ok data =>
        (some req, { st with loading := false, error := "",
                             answer := data.answer.getD "",
                             citations := data.citations.getD [],
                             hits := data.hits.getD [] })
    | .httpError s =>
        (some req, { st with loading := false, answer := "", citations := [],
                             hits := [], error := "Request failed: " ++ s })
    | .networkError m =>
        (some req, { st with loading := false, answer := "", citations := [],
                             hits := [], error := m.getD "Failed to get answer" })

/-- State of the ingest page: the `useState` hooks of `IngestPage`. -/
structure IngestState where
  url : String
  source : String
  status : String
  loading : Bool
deriving DecidableEq

/-- Outcome of the ingest page's fetch: `res.ok` with `\x7bjob, source\x7d`,
a non-ok response with an optional `message`, or a thrown network error. -/
inductive IngestOutcome where
  | ok (job : String) (src : String)
  | badRequest (message : Option String)
  | networkError
deriving DecidableEq

/-- The `handleSubmit` handler of the ingest page: returns early when the
url is empty, otherwise issues POST /ingest with body `source`, `url` and
folds the outcome into `status` (clearing the url on success). -/
def handleSubmit (st : IngestState) (outcome : IngestOutcome) :
    Option IngestRequest × IngestState :=
  if st.url = "" then (none, st)
  else
    let req : IngestRequest := { source := st.source, url := st.url }
    match outcome with
    | .ok job src =>
        (some req, { st with loading := false, url := "",
                             status := "✅ Successfully queued " ++ job ++ " for " ++ src })
    | .badRequest m =>
        (some req, { st with loading := false,
                             status := "❌ Error: " ++ m.getD "Failed to ingest" })
    | .networkError =>
        (some req, { st with loading := false,
                             status := "❌ Error: Failed to connect to API" })

/-- A selected file on the upload page. -/
structure UploadFile where
  name : String
deriving DecidableEq

/-- State of the upload page: the `useState` hooks of `UploadPage`. -/
structure UploadState where
  file : Option UploadFile
  status : String
  docId : Option Int
deriving DecidableEq

/-- Body of the POST /documents multipart request (the appended file). -/
structure UploadRequest where
  file : UploadFile
deriving DecidableEq

/-- Response of POST /documents consumed by the upload page. -/
structure UploadResponse where
  document_id : Int
deriving DecidableEq

/-- The `onSubmit` handler of the upload page: returns early when no file is
selected, otherwise uploads the file and records the returned document id
and the queued status line (the subsequent poll is modelled by `pollRun`). -/
def onSubmit (st : UploadState) (resp : UploadResponse) :
    Option UploadRequest × UploadState :=
  match st.file with
  | none => (none, st)
  | some f =>
      (some { file := f },
       { st with docId := some resp.document_id,
                 status := "Queued for parsing (doc #" ++ toString resp.document_id ++ ")" })

/-- Stop condition of the upload page's `poll` loop: the recursion ends
exactly when `j.status === 'parsed' || j.status === 'error' ||
j.status === 'parsed_empty'`. -/
def pollShouldStop (status : String) : Bool :=
  status == "parsed" || status == "error" || status == "parsed_empty"

/-- Delay, in milliseconds, between polls (`setTimeout(poll, 1500)`). -/
def pollIntervalMs : Nat := 1500

/-- Run of the upload page's `poll` loop over the successive statuses the
document endpoint reports: returns how many polls were issued and the
status at which the loop stopped (`none` when the supplied statuses ran out
without hitting the stop condition). -/
def pollRun : List String → Nat × Option String
  | [] => (0, none)
  | s :: rest =>
      if pollShouldStop s then (1, some s)
      else
        let r := pollRun rest
        (r.1 + 1, r.2)

/-- Terminal statuses of the Document state machine as the specification
words them: `parsed_empty`, `error` and `done` are the terminal states.
Stated from the spec for comparison with `pollShouldStop`. -/
def specTerminalStatus (status : String) : Bool :=
  status == "parsed_empty" || status == "error" || status == "done"

/-- URL requested by the home page's `fetchApiHealth`. -/
def fetchApiHealthUrl : String := "http://localhost:8000/health"

/-- HTTP method used by `fetchApiHealth`. -/
def fetchApiHealthMethod : String := "GET"

/-- Health endpoint as the specification words it (`GET /healthz`), for
comparison with the URL the code actually requests. -/
def specHealthUrl : String := "http://localhost:8000/healthz"

/-- State of the home page's API status card. -/
structure ApiStatus where
  isLoading : Bool
  isConnected : Bool
  data : Option HealthResponse
  error : Option String
deriving DecidableEq

/-- Success continuation of `fetchApiHealth`: stores the whole parsed
`HealthResponse` (all four fields) into the page state. -/
def onHealthSuccess (r : HealthResponse) : ApiStatus :=
  { isLoading := false, isConnected := true, data := some r, error := none }

/-! ### Spec-modelled backend: Retrieval/Answer Service

The backend service (FastAPI, POST /search and POST /qa) is not among the
source files; only its frontend callers are. The definitions below are
modelled from the specification, section 4.2. -/

/-- Modelled from the spec: an embedded chunk held by the Vector Index and
Metadata Store — chunk identifier, owning document, ordinal index, text
span and embedding vector (the backend service itself is missing from the
source tree). -/
structure EmbeddedChunk where
  id : Int
  text : String
  chunk_index : Int
  document_id : Int
  filename : String
  embedding : List Rat
deriving DecidableEq

/-- Insert a scored result into a list kept in non-increasing
`similarity_score` order. -/
def insertDesc (c : ChunkResult) : List ChunkResult → List ChunkResult
  | [] => [c]
  | d :: ds =>
      if d.similarity_score ≤ c.similarity_score then c :: d :: ds
      else d :: insertDesc c ds

/-- Sort results by non-increasing `similarity_score`. -/
def sortByScoreDesc : List ChunkResult → List ChunkResult
  | [] => []
  | c :: cs => insertDesc c (sortByScoreDesc cs)

/-- Modelled from the spec: `search(query, k)` of the Retrieval/Answer
Service (missing from the source tree) — embeds the query with the same
embedder used at ingestion, scores every embedded chunk with the external
similarity function, joins document metadata, and returns the k best hits
ordered by descending similarity score. -/
def searchService (index : List EmbeddedChunk) (embed : String → List Rat)
    (sim : List Rat → List Rat → Rat) (q : String) (k : Nat) : SearchResponse :=
  let scored := index.map (fun c =>
    { id := c.id, text := c.text, chunk_index := c.chunk_index,
      document_id := c.document_id, filename := c.filename,
      similarity_score := sim (embed q) c.embedding : ChunkResult })
  let results := (sortByScoreDesc scored).take k
  { query := q, results := results, total_results := (results.length : Int) }

/-- Modelled from the spec: the POST /search endpoint — an empty index
yields zero results, not a fault (`EmptyIndexError` is by design an empty
valid response, distinguished from a real error). -/
def searchEndpoint (index : List EmbeddedChunk) (embed : String → List Rat)
    (sim : List Rat → List Rat → Rat) (q : String) (k : Nat) :
    Except String SearchResponse :=
  .ok (searchService index embed sim q k)

/-- Modelled from the spec: the context hit returned by `answer` for a
retrieved chunk — document id, chunk index, score and a bounded text
preview. -/
def contextHitOf (c : ChunkResult) : ContextHit :=
  { document_id := c.document_id, chunk_index := c.chunk_index,
    score := c.similarity_score, preview := String.mk (c.text.data.take 200) }

/-- Modelled from the spec: assemble the retrieved chunk texts into a
context window whose total size is capped by `max_tokens`. -/
def contextWindow : List ChunkResult → Nat → List String
  | [], _ => []
  | h :: t, budget =>
      if h.text.length ≤ budget then h.text :: contextWindow t (budget - h.text.length)
      else []

/-- Modelled from the spec: the grounding filter of `answer` — a citation
produced by the LLM that does not refer to a chunk of the retrieved hit set
is stripped rather than surfaced. -/
def stripUngrounded (hits : List ChunkResult) (raw : List Citation) : List Citation :=
  raw.filter (fun c =>
    hits.any (fun h => h.document_id == c.document_id && h.chunk_index == c.chunk_index))

/-- Modelled from the spec: `answer(query, k, max_tokens)` as the POST /qa
endpoint (missing from the source tree) — performs the same retrieval as
`search`, assembles a bounded context, and delegates to the external local
LLM when it is reachable (`llm = some f`); when the LLM capability is down
(`llm = none`) the endpoint still returns the populated hits with the
answer omitted, no exception escaping to the caller. -/
def qaEndpoint (index : List EmbeddedChunk) (embed : String → List Rat)
    (sim : List Rat → List Rat → Rat) (q : String) (k maxTokens : Nat)
    (llm : Option (List String → String × List Citation)) :
    Except String QAResponse :=
  let hits := (searchService index embed sim q k).results
  match llm with
  | none =>
      .ok { answer := none, citations := some [],
            hits := some (hits.map contextHitOf) }
  | some f =>
      let generated := f (contextWindow hits maxTokens)
      .ok { answer := some generated.1,
            citations := some (stripUngrounded hits generated.2),
            hits := some (hits.map contextHitOf) }

/-! ### The search page's highlightText

`highlightText` builds `new RegExp("(" + tokens.join("|") + ")", "gi")`
from `tokens = query.trim().split(' ')` and replaces every match with
`<mark class="bg-yellow-200 px-1 rounded">$1</mark>`. The embedding below
interprets that regex as an ordered alternation of literal tokens, matched
case-insensitively, with JavaScript's global-replace scan (an empty match
advances one character). This is faithful exactly when no token contains a
regex metacharacter. -/

/-- A segment of the highlighted output: an untouched character or a
matched span wrapped in the mark tag. -/
inductive HLSeg where
  | plain (c : Char)
  | marked (s : String)
deriving DecidableEq

/-- Opening mark tag emitted by `highlightText`. -/
def markOpen : String := "<mark class=\"bg-yellow-200 px-1 rounded\">"

/-- Closing mark tag emitted by `highlightText`. -/
def markClose : String := "</mark>"

/-- Case-insensitive test that token `t` occurs at the head of `cs`
(the `i` flag of the constructed RegExp). -/
def ciMatchAt : List Char → List Char → Bool
  | [], _ => true
  | _ :: _, [] => false
  | a :: as, c :: cs => a.toLower == c.toLower && ciMatchAt as cs

/-- Try the alternation's tokens in order at the current position and
return the actual matched characters of the first token that matches
(JavaScript alternation is ordered, first match wins). -/
def tryAlts (alts : List (List Char)) (cs : List Char) : Option (List Char) :=
  match alts with
  | [] => none
  | a :: rest => if ciMatchAt a cs then some (cs.take a.length) else tryAlts rest cs

/-- Fuelled scan implementing JavaScript's global replace over the literal
alternation: at each position the first matching token is wrapped; an
empty match emits an empty marked span and advances one character; an
unmatched character is copied. `fuel` bounds the recursion; any
`fuel > cs.length` computes the full scan. -/
def hlScanF : Nat → List (List Char) → List Char → List HLSeg
  | 0, _, _ => []
  | _ + 1, alts, [] =>
      match tryAlts alts [] with
      | some _ => [.marked ""]
      | none => []
  | f + 1, alts, c :: cs =>
      match tryAlts alts (c :: cs) with
      | some [] => .marked "" :: .plain c :: hlScanF f alts cs
      | some (m :: ms) => .marked (String.mk (m :: ms)) :: hlScanF f alts (cs.drop ms.length)
      | none => .plain c :: hlScanF f alts cs

/-- The global-replace scan of the constructed regex over the text. -/
def hlScan (alts : List (List Char)) (cs : List Char) : List HLSeg :=
  hlScanF (cs.length + 1) alts cs

/-- Render one segment: a plain character is copied, a matched span is
wrapped in the mark tag (the `$1` backreference). -/
def renderSeg : HLSeg → String
  | .plain c => String.singleton c
  | .marked s => markOpen ++ s ++ markClose

/-- Render the scanned segments into the returned string. -/
def renderSegs (l : List HLSeg) : String :=
  l.foldr (fun s acc => renderSeg s ++ acc) ""

/-- The characters a segment stood for in the input text. -/
def segChars : HLSeg → List Char
  | .plain c => [c]
  | .marked s => s.data

/-- Strip the mark tags back off: the input characters the segments cover. -/
def unrenderSegs (l : List HLSeg) : List Char :=
  l.foldr (fun s acc => segChars s ++ acc) []

/-- The search page's `highlightText(text, query)`: identity on a blank
query, otherwise the regex replace over the tokens of
`query.trim().split(' ')`. -/
def highlightText (text query : String) : String :=
  if jsTrim query = "" then text
  else renderSegs (hlScan (splitOnChar ' ' (jsTrim query).data) text.data)

/-- Characters that are ordinary (non-metacharacter) in a JavaScript
regular expression; the embedding of the constructed RegExp is faithful
only for tokens made of these. -/
def regexLiteralChar (c : Char) : Bool :=
  !("\\^$.|?*+()[]\x7b\x7d".data.contains c)

/-- A token that the constructed RegExp matches literally. -/
def regexLiteralToken (t : List Char) : Bool :=
  t.all regexLiteralChar

/-! ### Lemmas about the ranking of search results -/

/-- The descending order on scored results. -/
def scoreGE (a b : ChunkResult) : Prop :=
  b.similarity_score ≤ a.similarity_score

theorem mem_insertDesc {c y : ChunkResult} {l : List ChunkResult} :
    y ∈ insertDesc c l ↔ y = c ∨ y ∈ l := by
  induction l with
  | nil => simp [insertDesc]
  | cons d ds ih =>
      by_cases h : d.similarity_score ≤ c.similarity_score
      · simp [insertDesc, h]
      · simp only [insertDesc, if_neg h, List.mem_cons, ih]
        tauto

theorem pairwise_insertDesc {c : ChunkResult} {l : List ChunkResult}
    (hp : l.Pairwise scoreGE) : (insertDesc c l).Pairwise scoreGE := by
  induction l with
  | nil => simp [insertDesc, List.pairwise_singleton]
  | cons d ds ih =>
      rcases List.pairwise_cons.mp hp with ⟨hd, hds⟩
      by_cases h : d.similarity_score ≤ c.similarity_score
      · simp only [insertDesc, if_pos h]
        refine List.pairwise_cons.mpr ⟨?_, hp⟩
        intro y hy
        rcases List.mem_cons.mp hy with rfl | hy
        · exact h
        · exact le_trans (hd y hy) h
      · simp only [insertDesc, if_neg h]
        refine List.pairwise_cons.mpr ⟨?_, ih hds⟩
        intro y hy
        rcases mem_insertDesc.mp hy with rfl | hy
        · exact le_of_lt (lt_of_not_le h)
        · exact hd y hy

theorem pairwise_sortByScoreDesc (l : List ChunkResult) :
    (sortByScoreDesc l).Pairwise scoreGE := by
  induction l with
  | nil => simp [sortByScoreDesc]
  | cons c cs ih => exact pairwise_insertDesc ih

theorem length_insertDesc (c : ChunkResult) (l : List ChunkResult) :
    (insertDesc c l).length = l.length + 1 := by
  induction l with
  | nil => rfl
  | cons d ds ih =>
      by_cases h : d.similarity_score ≤ c.similarity_score
      · simp [insertDesc, h]
      · simp [insertDesc, h, ih]

theorem length_sortByScoreDesc (l : List ChunkResult) :
    (sortByScoreDesc l).length = l.length := by
  induction l with
  | nil => rfl
  | cons c cs ih => simp [sortByScoreDesc, length_insertDesc, ih]

/-! ### Claim theorems -/

/-- C2: search results are ordered by non-increasing similarity score (each
result's `similarity_score` is at least the next one's), and the number of
results never exceeds the number of embedded chunks, nor `k`. -/
theorem search_sorted_bounded (index : List EmbeddedChunk)
    (embed : String → List Rat) (sim : List Rat → List Rat → Rat)
    (q : String) (k : Nat) :
    List.Chain' (fun a b => b.similarity_score ≤ a.similarity_score)
      (searchService index embed sim q k).results ∧
    (searchService index embed sim q k).results.length ≤ index.length ∧
    (searchService index embed sim q k).results.length ≤ k := by
  refine ⟨?_, ?_, ?_⟩
  · exact (((pairwise_sortByScoreDesc _).sublist
      (List.take_sublist k _)).chain' : List.Chain' scoreGE _)
  · simp [searchService, List.length_take, length_sortByScoreDesc]
  · simp [searchService, List.length_take, length_sortByScoreDesc]

/-- C1: every citation returned by the `answer` operation refers to a chunk
of that same call's retrieved hit set; a citation outside the retrieved set
is never surfaced. -/
theorem answer_citations_grounded (index : List EmbeddedChunk)
    (embed : String → List Rat) (sim : List Rat → List Rat → Rat)
    (q : String) (k maxTokens : Nat)
    (f : List String → String × List Citation) (r : QAResponse) (c : Citation)
    (hw : qaEndpoint index embed sim q k maxTokens (some f) = .ok r)
    (hc : c ∈ r.citations.getD []) :
    ∃ h ∈ (searchService index embed sim q k).results,
      h.document_id = c.document_id ∧ h.chunk_index = c.chunk_index := by
  simp only [qaEndpoint, Except.ok.injEq] at hw
  subst hw
  simp only [Option.getD_some, stripUngrounded, List.mem_filter,
    List.any_eq_true, Bool.and_eq_true, beq_iff_eq] at hc
  rcases hc with ⟨-, h, hmem, hdoc, hidx⟩
  exact ⟨h, hmem, hdoc, hidx⟩

/-- C1 witness: a concrete call where the LLM cites one retrieved chunk and
one foreign chunk; the surviving citation resolves into the hit set. -/
theorem answer_citations_grounded_w :
    ∃ h ∈ (searchService
        [{ id := 1, text := "t", chunk_index := 0, document_id := 7,
           filename := "f", embedding := [] }]
        (fun _ => []) (fun _ _ => 0) "q" 5).results,
      h.document_id = ({ document_id := 7, chunk_index := 0 : Citation }).document_id ∧
      h.chunk_index = ({ document_id := 7, chunk_index := 0 : Citation }).chunk_index :=
  answer_citations_grounded
    [{ id := 1, text := "t", chunk_index := 0, document_id := 7,
       filename := "f", embedding := [] }]
    (fun _ => []) (fun _ _ => 0) "q" 5 100
    (fun _ => ("ans", [{ document_id := 7, chunk_index := 0 },
                       { document_id := 9, chunk_index := 3 }]))
    { answer := some "ans",
      citations := some [{ document_id := 7, chunk_index := 0 }],
      hits := some [{ document_id := 7, chunk_index := 0, score := 0, preview := "t" }] }
    { document_id := 7, chunk_index := 0 }
    rfl (by decide)

/-- C4: a search against an empty index returns zero results rather than an
error — the response is `total_results = 0` with an empty results list —
and the search page renders the empty-result panel on it, not a failure. -/
theorem search_empty_index_zero_results (embed : String → List Rat)
    (sim : List Rat → List Rat → Rat) (q : String) (k : Nat) :
    searchEndpoint [] embed sim q k =
      .ok { query := q, results := [], total_results := 0 } ∧
    searchResultsView { query := q, results := [], total_results := 0 } =
      .emptyState := by
  constructor
  · simp [searchEndpoint, searchService, sortByScoreDesc]
  · simp [searchResultsView]

/-- C3: when the LLM capability is down, the `answer` endpoint still returns
the populated hits with the answer omitted and no exception to the caller;
the chat client consumes such a response by defaulting the missing answer
to the empty string and missing citations/hits to empty lists. -/
theorem qa_llm_down_graceful (index : List EmbeddedChunk)
    (embed : String → List Rat) (sim : List Rat → List Rat → Rat)
    (q : String) (k maxTokens : Nat) (st : ChatState)
    (h1 : jsTrim st.query ≠ "") (h2 : st.loading = false) :
    qaEndpoint index embed sim q k maxTokens none =
      .ok { answer := none, citations := some [],
            hits := some ((searchService index embed sim q k).results.map contextHitOf) } ∧
    (ask st (.ok { answer := none, citations := some [],
                   hits := some ((searchService index embed sim q k).results.map contextHitOf) })).2 =
      { st with loading := false, error := "", answer := "", citations := [],
                hits := (searchService index embed sim q k).results.map contextHitOf } ∧
    (ask st (.ok { answer := none, citations := none, hits := none })).2 =
      { st with loading := false, error := "", answer := "", citations := [],
                hits := [] } := by
  refine ⟨rfl, ?_, ?_⟩
  · simp [ask, h1, h2]
  · simp [ask, h1, h2]

/-- C3 witness: a concrete LLM-down call over a one-chunk index, consumed by
a concrete chat state. -/
theorem qa_llm_down_graceful_w :
    qaEndpoint
        [{ id := 1, text := "t", chunk_index := 0, document_id := 7,
           filename := "f", embedding := [] }]
        (fun _ => []) (fun _ _ => 0) "q" 5 100 none =
      .ok { answer := none, citations := some [],
            hits := some ((searchService
              [{ id := 1, text := "t", chunk_index := 0, document_id := 7,
                 filename := "f", embedding := [] }]
              (fun _ => []) (fun _ _ => 0) "q" 5).results.map contextHitOf) } ∧
    (ask { query := "why", loading := false, answer := "old", citations := [],
           hits := [], error := "" }
       (.ok { answer := none, citations := some [],
              hits := some ((searchService
                [{ id := 1, text := "t", chunk_index := 0, document_id := 7,
                   filename := "f", embedding := [] }]
                (fun _ => []) (fun _ _ => 0) "q" 5).results.map contextHitOf) })).2 =
      { query := "why", loading := false, error := "", answer := "",
        citations := [],
        hits := (searchService
          [{ id := 1, text := "t", chunk_index := 0, document_id := 7,
             filename := "f", embedding := [] }]
          (fun _ => []) (fun _ _ => 0) "q" 5).results.map contextHitOf } ∧
    (ask { query := "why", loading := false, answer := "old", citations := [],
           hits := [], error := "" }
       (.ok { answer := none, citations := none, hits := none })).2 =
      { query := "why", loading := false, error := "", answer := "",
        citations := [], hits := [] } :=
  qa_llm_down_graceful
    [{ id := 1, text := "t", chunk_index := 0, document_id := 7,
       filename := "f", embedding := [] }]
    (fun _ => []) (fun _ _ => 0) "q" 5 100
    { query := "why", loading := false, answer := "old", citations := [],
      hits := [], error := "" }
    (by decide) rfl

/-- C5 counterexample: the poll does not stop at `done` (a terminal status
of the spec's state machine) and does stop at `parsed` (a non-terminal
status): its stop set is not the set of terminal statuses, and a run whose
statuses pass `done` keeps polling until `parsed`. -/
theorem poll_claim_counterexample :
    pollShouldStop "done" = false ∧ specTerminalStatus "done" = true ∧
    pollShouldStop "parsed" = true ∧ specTerminalStatus "parsed" = false ∧
    (pollRun ["done", "parsed"]).2 = some "parsed" ∧
    (pollRun ["done", "parsed"]).1 = 2 := by
  decide

/-- C5 amended: the upload page's status poll repeats every 1500 ms while
the reported status is none of `parsed`, `error`, `parsed_empty`, and stops
exactly at the first status that is one of those three. -/
theorem poll_stop_behavior (l : List String) :
    pollIntervalMs = 1500 ∧
    (∀ s, (pollRun l).2 = some s →
      (s = "parsed" ∨ s = "error" ∨ s = "parsed_empty")) ∧
    ((pollRun l).2 = none → ∀ s ∈ l, pollShouldStop s = false) := by
  refine ⟨rfl, ?_, ?_⟩
  · intro s hs
    induction l with
    | nil => simp [pollRun] at hs
    | cons t rest ih =>
        by_cases h : pollShouldStop t = true
        · simp only [pollRun, if_pos h] at hs
          cases hs
          have h2 := h
          simp only [pollShouldStop, Bool.or_eq_true, beq_iff_eq] at h2
          tauto
        · simp only [pollRun, if_neg h] at hs
          exact ih hs
  · intro hn s hs
    induction l with
    | nil => simp at hs
    | cons t rest ih =>
        by_cases h : pollShouldStop t = true
        · simp [pollRun, if_pos h] at hn
        · simp only [pollRun, if_neg h] at hn
          rcases List.mem_cons.mp hs with rfl | hs
          · simpa using h
          · exact ih hn hs

/-- C5 amended witness: a run reaching `parsed` stops there, and a run that
only saw `queued` and `embedded` never satisfied the stop condition. -/
theorem poll_stop_behavior_w :
    ("parsed" = "parsed" ∨ "parsed" = "error" ∨ "parsed" = "parsed_empty") ∧
    pollShouldStop "queued" = false :=
  ⟨(poll_stop_behavior ["queued", "parsed"]).2.1 "parsed" (by decide),
   (poll_stop_behavior ["queued", "embedded"]).2.2 (by decide) "queued" (by decide)⟩

/-- C6: the home page's health check requests GET
`http://localhost:8000/health` — not the `/healthz` endpoint the repository
documents — and its success path stores the whole four-field
`HealthResponse` into the page state. -/
theorem health_check_request_facts :
    fetchApiHealthUrl = "http://localhost:8000/health" ∧
    fetchApiHealthMethod = "GET" ∧
    fetchApiHealthUrl ≠ specHealthUrl ∧
    onHealthSuccess { status := "ok", timestamp := "t", version := "1",
                      environment := "dev" } =
      { isLoading := false, isConnected := true,
        data := some { status := "ok", timestamp := "t", version := "1",
                       environment := "dev" },
        error := none } := by
  refine ⟨rfl, rfl, by decide, rfl⟩

/-- C7: for a non-blank query the search page issues exactly the body
`query` (trimmed) and `k = 10`, and consumes a response of the
`SearchResponse` shape by storing it whole into the page state. -/
theorem search_request_response_shape (st : SearchState) (r : SearchResponse)
    (h : jsTrim st.query ≠ "") :
    (handleSearch st (.ok r)).1 = some { query := jsTrim st.query, k := 10 } ∧
    (handleSearch st (.ok r)).2 =
      { st with loading := false, error := "", results := some r } := by
  constructor <;> simp [handleSearch, h]

/-- C7 witness: a concrete query and a concrete response of the declared
shape. -/
theorem search_request_response_shape_w :
    (handleSearch { query := " foo ", results := none, loading := true, error := "x" }
        (.ok { query := "foo",
               results := [{ id := 1, text := "t", chunk_index := 0,
                             document_id := 2, filename := "f",
                             similarity_score := 1 }],
               total_results := 1 })).1 =
      some { query := jsTrim " foo ", k := 10 } ∧
    (handleSearch { query := " foo ", results := none, loading := true, error := "x" }
        (.ok { query := "foo",
               results := [{ id := 1, text := "t", chunk_index := 0,
                             document_id := 2, filename := "f",
                             similarity_score := 1 }],
               total_results := 1 })).2 =
      { query := " foo ", loading := false, error := "",
        results := some { query := "foo",
                          results := [{ id := 1, text := "t", chunk_index := 0,
                                        document_id := 2, filename := "f",
                                        similarity_score := 1 }],
                          total_results := 1 } } :=
  search_request_response_shape
    { query := " foo ", results := none, loading := true, error := "x" }
    { query := "foo",
      results := [{ id := 1, text := "t", chunk_index := 0, document_id := 2,
                    filename := "f", similarity_score := 1 }],
      total_results := 1 }
    (by decide)

/-- C8: for a non-blank question with no request in flight the chat page
issues exactly the body `query` (trimmed), `k = 6`, `max_tokens = 384`, and
consumes a `QAResponse` by storing answer, citations and hits (with their
missing-field defaults) into the page state. -/
theorem qa_request_response_shape (st : ChatState) (r : QAResponse)
    (h1 : jsTrim st.query ≠ "") (h2 : st.loading = false) :
    (ask st (.ok r)).1 =
      some { query := jsTrim st.query, k := 6, max_tokens := 384 } ∧
    (ask st (.ok r)).2 =
      { st with loading := false, error := "", answer := r.answer.getD "",
                citations := r.citations.getD [], hits := r.hits.getD [] } := by
  constructor <;> simp [ask, h1, h2]

/-- C8 witness: a concrete question and a concrete response of the declared
shape. -/
theorem qa_request_response_shape_w :
    (ask { query := " why ", loading := false, answer := "", citations := [],
           hits := [], error := "" }
        (.ok { answer := some "because",
               citations := some [{ document_id := 1, chunk_index := 2 }],
               hits := some [{ document_id := 1, chunk_index := 2, score := 1,
                               preview := "p" }] })).1 =
      some { query := jsTrim " why ", k := 6, max_tokens := 384 } ∧
    (ask { query := " why ", loading := false, answer := "", citations := [],
           hits := [], error := "" }
        (.ok { answer := some "because",
               citations := some [{ document_id := 1, chunk_index := 2 }],
               hits := some [{ document_id := 1, chunk_index := 2, score := 1,
                               preview := "p" }] })).2 =
      { query := " why ", loading := false, error := "", answer := "because",
        citations := [{ document_id := 1, chunk_index := 2 }],
        hits := [{ document_id := 1, chunk_index := 2, score := 1,
                   preview := "p" }] } :=
  qa_request_response_shape
    { query := " why ", loading := false, answer := "", citations := [],
      hits := [], error := "" }
    { answer := some "because",
      citations := some [{ document_id := 1, chunk_index := 2 }],
      hits := some [{ document_id := 1, chunk_index := 2, score := 1,
                      preview := "p" }] }
    (by decide) rfl

/-- C9: a submit with blank required input — whitespace-only query on the
search or chat page, empty url on the ingest page, no file on the upload
page — issues no HTTP request and leaves the page state untouched. -/
theorem blank_input_no_effect (sst : SearchState) (cst : ChatState)
    (ist : IngestState) (ust : UploadState)
    (o1 : FetchOutcome SearchResponse) (o2 : FetchOutcome QAResponse)
    (o3 : IngestOutcome) (ur : UploadResponse)
    (h1 : jsTrim sst.query = "") (h2 : jsTrim cst.query = "")
    (h3 : ist.url = "") (h4 : ust.file = none) :
    handleSearch sst o1 = (none, sst) ∧
    ask cst o2 = (none, cst) ∧
    handleSubmit ist o3 = (none, ist) ∧
    onSubmit ust ur = (none, ust) := by
  refine ⟨?_, ?_, ?_, ?_⟩
  · simp [handleSearch, h1]
  · simp [ask, h2]
  · simp [handleSubmit, h3]
  · simp [onSubmit, h4]

/-- C9 witness: concrete blank inputs on all four pages. -/
theorem blank_input_no_effect_w :
    handleSearch { query := "   ", results := none, loading := false, error := "" }
        (.networkError none) =
      (none, { query := "   ", results := none, loading := false, error := "" }) ∧
    ask { query := " ", loading := false, answer := "", citations := [],
          hits := [], error := "" } (.networkError none) =
      (none, { query := " ", loading := false, answer := "", citations := [],
               hits := [], error := "" }) ∧
    handleSubmit { url := "", source := "github", status := "", loading := false }
        .networkError =
      (none, { url := "", source := "github", status := "", loading := false }) ∧
    onSubmit { file := none, status := "", docId := none } { document_id := 3 } =
      (none, { file := none, status := "", docId := none }) :=
  blank_input_no_effect
    { query := "   ", results := none, loading := false, error := "" }
    { query := " ", loading := false, answer := "", citations := [],
      hits := [], error := "" }
    { url := "", source := "github", status := "", loading := false }
    { file := none, status := "", docId := none }
    (.networkError none) (.networkError none) .networkError { document_id := 3 }
    (by decide) (by decide) rfl rfl

/-! ### Lemmas about the highlight scan -/

theorem tryAlts_some {alts : List (List Char)} {cs m : List Char}
    (h : tryAlts alts cs = some m) :
    ∃ a ∈ alts, ciMatchAt a cs = true ∧ m = cs.take a.length := by
  induction alts with
  | nil => simp [tryAlts] at h
  | cons a rest ih =>
      by_cases hm : ciMatchAt a cs = true
      · simp only [tryAlts, if_pos hm, Option.some.injEq] at h
        exact ⟨a, List.mem_cons_self a rest, hm, h.symm⟩
      · simp only [tryAlts, if_neg hm] at h
        rcases ih h with ⟨b, hb, hmb, hrest⟩
        exact ⟨b, List.mem_cons_of_mem a hb, hmb, hrest⟩

theorem ciMatchAt_take {a : List Char} :
    ∀ {cs : List Char}, ciMatchAt a cs = true →
      (cs.take a.length).length = a.length ∧
      (cs.take a.length).map Char.toLower = a.map Char.toLower := by
  induction a with
  | nil => intro cs _; simp
  | cons x xs ih =>
      intro cs h
      cases cs with
      | nil => simp [ciMatchAt] at h
      | cons c cs' =>
          simp only [ciMatchAt, Bool.and_eq_true, beq_iff_eq] at h
          rcases h with ⟨hx, hxs⟩
          rcases ih hxs with ⟨hl, hm⟩
          simp [List.take, hl, hm, hx]

theorem tryAlts_nil_of_ne {alts : List (List Char)}
    (hne : ∀ a ∈ alts, a ≠ []) : tryAlts alts [] = none := by
  induction alts with
  | nil => rfl
  | cons a rest ih =>
      have ha : a ≠ [] := hne a (List.mem_cons_self a rest)
      cases a with
      | nil => exact absurd rfl ha
      | cons x xs =>
          simp only [tryAlts, ciMatchAt, if_neg]
          exact ih fun b hb => hne b (List.mem_cons_of_mem _ hb)

theorem take_append_drop_lengthTake (n : Nat) (cs : List Char) :
    cs.take n ++ cs.drop ((cs.take n).length) = cs := by
  rcases le_total n cs.length with h | h
  · simp [List.length_take, Nat.min_eq_left h, List.take_append_drop]
  · simp [List.take_of_length_le h, List.length_take, Nat.min_eq_right h,
      List.drop_length]

theorem unrenderSegs_nil : unrenderSegs [] = [] := rfl

theorem unrenderSegs_cons (s : HLSeg) (l : List HLSeg) :
    unrenderSegs (s :: l) = segChars s ++ unrenderSegs l := rfl

theorem hlScanF_unrender (alts : List (List Char))
    (hne : ∀ a ∈ alts, a ≠ []) :
    ∀ (f : Nat) (cs : List Char), cs.length < f →
      unrenderSegs (hlScanF f alts cs) = cs := by
  intro f
  induction f with
  | zero => intro cs h; omega
  | succ f ih =>
      intro cs hlen
      cases cs with
      | nil => simp [hlScanF, tryAlts_nil_of_ne hne, unrenderSegs]
      | cons c cs' =>
          have hlen' : cs'.length < f := by
            simp only [List.length_cons] at hlen; omega
          cases htry : tryAlts alts (c :: cs') with
          | none =>
              simp only [hlScanF, htry]
              rw [unrenderSegs_cons, ih cs' hlen']
              rfl
          | some m =>
              rcases tryAlts_some htry with ⟨a, ha, hmatch, hm⟩
              cases m with
              | nil =>
                  exfalso
                  cases a with
                  | nil => exact hne [] ha rfl
                  | cons x xs => simp [List.length_cons] at hm
              | cons m0 ms =>
                  cases a with
                  | nil => exact absurd rfl (hne [] ha)
                  | cons x xs =>
                      have hm2 : m0 = c ∧ ms = cs'.take xs.length := by
                        simpa using hm
                      rcases hm2 with ⟨hm0, hms⟩
                      simp only [hlScanF, htry]
                      rw [unrenderSegs_cons]
                      have hdlen : (cs'.drop ms.length).length < f := by
                        have hle : (cs'.drop ms.length).length ≤ cs'.length := by
                          simp [List.length_drop]
                        omega
                      rw [ih _ hdlen]
                      show (m0 :: ms) ++ cs'.drop ms.length = c :: cs'
                      subst hm0
                      rw [hms]
                      simp only [List.cons_append, List.cons.injEq, true_and]
                      exact take_append_drop_lengthTake xs.length cs'

theorem hlScanF_marked (alts : List (List Char))
    (hne : ∀ a ∈ alts, a ≠ []) :
    ∀ (f : Nat) (cs : List Char) (s : String),
      HLSeg.marked s ∈ hlScanF f alts cs →
      s ≠ "" ∧ ∃ a ∈ alts, s.data.map Char.toLower = a.map Char.toLower := by
  intro f
  induction f with
  | zero => intro cs s h; simp [hlScanF] at h
  | succ f ih =>
      intro cs s hmem
      cases cs with
      | nil =>
          rw [hlScanF, tryAlts_nil_of_ne hne] at hmem
          simp at hmem
      | cons c cs' =>
          cases htry : tryAlts alts (c :: cs') with
          | none =>
              rw [hlScanF, htry] at hmem
              rcases List.mem_cons.mp hmem with h | h
              · exact absurd h (by simp)
              · exact ih cs' s h
          | some m =>
              rcases tryAlts_some htry with ⟨a, ha, hmatch, hm⟩
              cases m with
              | nil =>
                  exfalso
                  cases a with
                  | nil => exact hne [] ha rfl
                  | cons x xs => simp [List.length_cons] at hm
              | cons m0 ms =>
                  rw [hlScanF, htry] at hmem
                  rcases List.mem_cons.mp hmem with h | h
                  · have hs : s = String.mk (m0 :: ms) := by
                      simpa using h
                    subst hs
                    refine ⟨?_, a, ha, ?_⟩
                    · intro hcon
                      have hdata := congrArg String.data hcon
                      simp at hdata
                    · have := (ciMatchAt_take hmatch).2
                      rw [← hm] at this
                      simpa using this
                  · exact ih (cs'.drop ms.length) s h

/-- C10 counterexample: the query `"a  b"` (two spaces) has the
whitespace-separated tokens `a` and `b`, neither of which occurs in the
text `"c"`, so the claim demands `highlightText "c" "a  b" = "c"`; but the
constructed regex contains an empty alternative, which matches the empty
string at every position, so the code wraps empty matches in mark tags
instead of returning the text unchanged. -/
theorem highlightText_claim_counterexample :
    highlightText "c" "a  b" ≠ "c" ∧
    highlightText "c" "a  b" =
      markOpen ++ markClose ++ "c" ++ markOpen ++ markClose := by
  constructor <;> decide

/-- C10 amended: `highlightText` is the identity on blank queries; for a
non-blank query whose single-space-separated tokens are all nonempty and
free of regex metacharacters, the output is the rendering of a left-to-right
decomposition of the text in which every marked span is a case-insensitive
occurrence of one of the tokens and every other character is kept
unchanged (stripping the mark tags recovers the text exactly). -/
theorem highlightText_spec (text query : String) :
    (jsTrim query = "" → highlightText text query = text) ∧
    (jsTrim query ≠ "" →
      (∀ a ∈ splitOnChar ' ' (jsTrim query).data,
        a ≠ [] ∧ regexLiteralToken a = true) →
      highlightText text query =
        renderSegs (hlScan (splitOnChar ' ' (jsTrim query).data) text.data) ∧
      unrenderSegs (hlScan (splitOnChar ' ' (jsTrim query).data) text.data) =
        text.data ∧
      ∀ s, HLSeg.marked s ∈ hlScan (splitOnChar ' ' (jsTrim query).data) text.data →
        s ≠ "" ∧ ∃ a ∈ splitOnChar ' ' (jsTrim query).data,
          s.data.map Char.toLower = a.map Char.toLower) := by
  constructor
  · intro h
    simp [highlightText, h]
  · intro h halts
    have hne : ∀ a ∈ splitOnChar ' ' (jsTrim query).data, a ≠ [] :=
      fun a ha => (halts a ha).1
    refine ⟨by simp [highlightText, h], ?_, ?_⟩
    · exact hlScanF_unrender _ hne _ _ (Nat.lt_succ_self _)
    · exact fun s hs => hlScanF_marked _ hne _ _ s hs

/-- C10 amended witness: a blank query is the identity on `"abc"`, and the
query `"ab"` over the text `"xAby"` yields a decomposition whose single
marked span is the case-insensitive occurrence `Ab`. -/
theorem highlightText_spec_w :
    highlightText "abc" " " = "abc" ∧
    (highlightText "xAby" "ab" =
       renderSegs (hlScan (splitOnChar ' ' (jsTrim "ab").data) "xAby".data) ∧
     unrenderSegs (hlScan (splitOnChar ' ' (jsTrim "ab").data) "xAby".data) =
       "xAby".data ∧
     ∀ s, HLSeg.marked s ∈ hlScan (splitOnChar ' ' (jsTrim "ab").data) "xAby".data →
       s ≠ "" ∧ ∃ a ∈ splitOnChar ' ' (jsTrim "ab").data,
         s.data.map Char.toLower = a.map Char.toLower) :=
  ⟨(highlightText_spec "abc" " ").1 (by decide),
   (highlightText_spec "xAby" "ab").2 (by decide) (by decide)⟩

end KnowledgeHub
